import Mathlib

/-!
Verification development for the kuberhealthy `http-check` checker.

The definitions below are a shallow embedding of the two core source files,
`cmd/http-check/checkConfig.go` (configuration parsing) and
`cmd/http-check/main.go` (request dispatch, check loop, verdict threshold).

Modelling conventions:
* Go `int` values are embedded as unbounded `Int` (no arithmetic here comes
  near the 64-bit boundary, so overflow wrapping is irrelevant).
* The environment is a partial map `String → Option String`; `os.Getenv`
  returns `""` for absent variables, which `getEnvStr` reproduces.
* Errors returned by Go functions become `Except String α` values carrying
  the formatted error message.
* Network I/O is modelled by an oracle: each loop iteration is given the
  outcome (`Except String Int`, a transport error or a status code) that the
  network would produce for the single HTTP call that iteration may issue.
  The calls actually issued, and the blocking waits on the pacing ticker,
  are recorded in an event trace so that "no network call was made" and
  "the loop blocked on the timer" are provable statements.
* `float32` arithmetic in the verdict threshold is embedded as exact
  fraction arithmetic combined with an explicit round-to-nearest-ties-to-even
  rounding step at 24 bits of precision (IEEE-754 binary32 on the normal
  range; the magnitudes reachable from Go `int` inputs never overflow
  binary32's exponent range nor reach the subnormal range, so neither needs
  modelling).
-/

namespace HttpCheck

/-! ## Constants from `checkConfig.go` -/

/-- Default used when `COUNT` is unset. -/
def defaultCount : Int := 0

/-- Default used when `SECONDS` is unset. -/
def defaultSeconds : Int := 0

/-- Default used when `PASSING_PERCENT` is unset. -/
def defaultPassingPercent : Int := 100

/-- Default used when `REQUEST_TYPE` is unset. -/
def defaultRequestType : String := "GET"

/-- Default used when `REQUEST_BODY` is unset (the two-character string of an
opening and a closing curly brace). -/
def defaultRequestBody : String := "\x7b\x7d"

/-- Default used when `EXPECTED_STATUS_CODE` is unset. -/
def defaultExpectedStatusCode : Int := 200

/-! ## Data model -/

/-- `CheckConfig` from `checkConfig.go`: the validated configuration. -/
structure CheckConfig where
  CheckURL : String
  Count : Int
  Seconds : Int
  PassingPercent : Int
  RequestType : String
  RequestBody : String
  ExpectedStatusCode : Int
deriving DecidableEq

/-- `checkSummary` from `main.go`: the accumulator of the check loop. -/
structure checkSummary where
  ChecksRan : Int
  ChecksPassed : Int
  ChecksFailed : Int
deriving DecidableEq

/-! ## Configuration parsing (`parseConfig` in `checkConfig.go`) -/

/-- Numeric value of a decimal digit character, `none` on a non-digit. -/
def digitVal (c : Char) : Option Nat :=
  if '0' ≤ c ∧ c ≤ '9' then some (c.toNat - '0'.toNat) else none

/-- Accumulate the decimal value of a digit string; `none` if any character
is not a digit. -/
def digitsValAux : List Char → Nat → Option Nat
  | [], acc => some acc
  | c :: cs, acc =>
    match digitVal c with
    | none => none
    | some d => digitsValAux cs (acc * 10 + d)

/-- Embedding of Go `strconv.Atoi`: an optional leading sign followed by at
least one decimal digit. (The 64-bit range check of `strconv.Atoi` is not
modelled; no claim involves out-of-range literals.) -/
def Atoi (s : String) : Except String Int :=
  let bad : Except String Int :=
    .error ("strconv.Atoi: parsing \"" ++ s ++ "\": invalid syntax")
  match s.data with
  | [] => bad
  | c :: cs =>
    let signDigits : Bool × List Char :=
      if c = '-' then (true, cs)
      else if c = '+' then (false, cs)
      else (false, c :: cs)
    match signDigits.2 with
    | [] => bad
    | _ :: _ =>
      match digitsValAux signDigits.2 0 with
      | none => bad
      | some n => .ok (if signDigits.1 then -(n : Int) else (n : Int))

/-- Embedding of Go `strings.HasPrefix` on character lists (first argument is
the candidate front part). -/
def listStartsWith : List Char → List Char → Bool
  | [], _ => true
  | _ :: _, [] => false
  | p :: ps, c :: cs => p = c && listStartsWith ps cs

/-- Embedding of Go `strings.HasPrefix s front`. -/
def strStartsWith (s front : String) : Bool :=
  listStartsWith front.data s.data

/-- One optional integer variable of `parseConfig`: if the value read from
the environment is non-empty it must parse as an integer (otherwise the
`ConfigError` names the offending variable), and if it is empty the default
is kept. -/
def parseField (get : String → String) (name : String) (dflt : Int) :
    Except String Int :=
  let v := get name
  if v.length ≠ 0 then
    match Atoi v with
    | .error e => .error ("error converting " ++ name ++ " to int: " ++ e)
    | .ok n => .ok n
  else .ok dflt

/-- Embedding of `parseConfig` over the string-valued environment reader
(the exact shape `os.Getenv` presents). Field order, validation and the two
zero-coercion quirks follow the source. -/
def parseConfigStr (get : String → String) : Except String CheckConfig :=
  let checkURL := get "CHECK_URL"
  if checkURL.length = 0 then
    .error "empty CHECK_URL specified. Please update your CHECK_URL environment variable"
  else if strStartsWith checkURL "http" = false then
    .error "given URL does not declare a supported protocol. (http | https)"
  else
    match parseField get "COUNT" defaultCount with
    | .error e => .error e
    | .ok count =>
      match parseField get "SECONDS" defaultSeconds with
      | .error e => .error e
      | .ok seconds =>
        match parseField get "PASSING_PERCENT" defaultPassingPercent with
        | .error e => .error e
        | .ok passing0 =>
          let passing := if passing0 = 0 then defaultPassingPercent else passing0
          let requestType :=
            if (get "REQUEST_TYPE").length ≠ 0 then get "REQUEST_TYPE"
            else defaultRequestType
          let requestBody :=
            if (get "REQUEST_BODY").length ≠ 0 then get "REQUEST_BODY"
            else defaultRequestBody
          match parseField get "EXPECTED_STATUS_CODE" defaultExpectedStatusCode with
          | .error e => .error e
          | .ok status0 =>
            let status :=
              if status0 = 0 then defaultExpectedStatusCode else status0
            .ok { CheckURL := checkURL, Count := count, Seconds := seconds,
                  PassingPercent := passing, RequestType := requestType,
                  RequestBody := requestBody, ExpectedStatusCode := status }

/-- An environment: a partial map from variable names to values. -/
def Env : Type := String → Option String

/-- Go `os.Getenv`: an absent variable reads as the empty string. -/
def getEnvStr (env : Env) (name : String) : String :=
  (env name).getD ""

/-- `parseConfig` over a partial-map environment. -/
def parseConfig (env : Env) : Except String CheckConfig :=
  parseConfigStr (getEnvStr env)

/-- Override a single variable of an environment. -/
def setVar (env : Env) (name : String) (v : Option String) : Env :=
  fun n => if n = name then v else env n

/-- Build an environment from an association list. -/
def envWith (pairs : List (String × String)) : Env :=
  fun n => (pairs.find? (fun p => p.1 == n)).map (fun p => p.2)

/-! ## Request dispatch (`callAPI` in `main.go`) -/

/-- `APIRequest` from `main.go` (the URL is kept as its string form; the
query-string structure of `url.URL` plays no role in the core logic). -/
structure APIRequest where
  URL : String
  «Type» : String
  Body : String
deriving DecidableEq

/-- One HTTP call as it would hit the wire: method, target, and the payload
actually sent (`none` for `http.Get`, which takes no body). -/
structure HttpCall where
  method : String
  url : String
  body : Option String
deriving DecidableEq

/-- Observable effects of the check loop: network calls issued and blocking
waits on the pacing ticker, in program order. -/
inductive Event where
  | call (c : HttpCall)
  | wait
deriving DecidableEq

/-- Wrap a transport-level failure the way `callAPI` formats it (the target
URL followed by the underlying cause). `url.Redacted` only differs from the
plain URL string when the URL carries userinfo, which the core logic never
inspects, so redaction is not modelled separately. -/
def wrapErr (u : String) : Except String Int → Except String Int
  | .error e => .error ("error occurred while calling " ++ u ++ ": " ++ e)
  | .ok r => .ok r

/-- Embedding of `callAPI`: dispatch on the request method. `respond` is the
outcome the network would produce for the single call this invocation may
issue; the second component is the list of calls actually issued. For `GET`
the call goes through `http.Get`, which ignores the `Body` field; for
`POST`/`PUT`/`DELETE`/`PATCH` the request carries the body; any other method
fails with the `wrong request type found` error before any network I/O. -/
def callAPI (respond : Except String Int) (request : APIRequest) :
    Except String Int × List HttpCall :=
  if request.«Type» = "GET" then
    (wrapErr request.URL respond,
     [{ method := "GET", url := request.URL, body := none }])
  else if request.«Type» = "POST" ∨ request.«Type» = "PUT" ∨
      request.«Type» = "DELETE" ∨ request.«Type» = "PATCH" then
    (wrapErr request.URL respond,
     [{ method := request.«Type», url := request.URL, body := some request.Body }])
  else
    (.error ("error occurred while calling " ++ request.URL ++
      ": wrong request type found"), [])

/-! ## Check loop (`runChecks` in `main.go`) -/

/-- Embedding of `waitForTicker`: `runChecks` creates a ticker exactly when
`cfg.Seconds > 0` (and a ticker built by `time.NewTicker` always has a
non-nil channel), so the wait happens exactly when `cfg.Seconds > 0`. -/
def waitForTicker (cfg : CheckConfig) : List Event :=
  if 0 < cfg.Seconds then [Event.wait] else []

/-- One iteration of the `runChecks` loop body: issue the dispatch, bump
`ChecksRan`, then bump `ChecksFailed` on a dispatch error or an unexpected
status code and `ChecksPassed` on the expected status code; every branch
ends with the ticker wait. Returns the updated summary and the events of
the iteration. -/
def runStep (cfg : CheckConfig) (parsedURL : String)
    (respond : Except String Int) (s : checkSummary) :
    checkSummary × List Event :=
  let rc := callAPI respond
    { URL := parsedURL, «Type» := cfg.RequestType, Body := cfg.RequestBody }
  let evs := rc.2.map Event.call ++ waitForTicker cfg
  let s₁ := { s with ChecksRan := s.ChecksRan + 1 }
  match rc.1 with
  | .error _ => ({ s₁ with ChecksFailed := s₁.ChecksFailed + 1 }, evs)
  | .ok code =>
    if code ≠ cfg.ExpectedStatusCode then
      ({ s₁ with ChecksFailed := s₁.ChecksFailed + 1 }, evs)
    else
      ({ s₁ with ChecksPassed := s₁.ChecksPassed + 1 }, evs)

/-- The `for summary.ChecksRan < cfg.Count` loop of `runChecks`, with the
guard tested before every iteration exactly as in the source. `fuel` is an
upper bound on the number of iterations still possible; since every
iteration increases `ChecksRan` by one, `(cfg.Count - s.ChecksRan).toNat`
iterations always suffice, and `runChecksLoop_fuel_stable` below shows the
result does not depend on the surplus fuel. -/
def runChecksLoop (cfg : CheckConfig) (parsedURL : String)
    (net : Nat → Except String Int) :
    Nat → checkSummary → checkSummary × List Event
  | 0, s => (s, [])
  | fuel + 1, s =>
    if s.ChecksRan < cfg.Count then
      let step := runStep cfg parsedURL (net s.ChecksRan.toNat) s
      let rest := runChecksLoop cfg parsedURL net fuel step.1
      (rest.1, step.2 ++ rest.2)
    else (s, [])

/-- The zero-initialised summary `runChecks` starts from. -/
def initSummary : checkSummary :=
  { ChecksRan := 0, ChecksPassed := 0, ChecksFailed := 0 }

/-- Embedding of `runChecks`: run the loop from the zero summary. `net i`
is the network outcome for the call of iteration `i`. -/
def runChecks (cfg : CheckConfig) (parsedURL : String)
    (net : Nat → Except String Int) : checkSummary × List Event :=
  runChecksLoop cfg parsedURL net cfg.Count.toNat initSummary

/-- `runChecks` as the Go caller sees its `(*checkSummary, error)` pair: the
single `return summary, nil` means the error component is always nil. -/
def runChecksE (cfg : CheckConfig) (parsedURL : String)
    (net : Nat → Except String Int) :
    Except String (checkSummary × List Event) :=
  .ok (runChecks cfg parsedURL net)

/-- Number of ticker waits in an event trace. -/
def isWaitEv : Event → Bool
  | .wait => true
  | .call _ => false

/-- Count the blocking ticker waits of a trace. -/
def waitCount (evs : List Event) : Nat :=
  (evs.filter isWaitEv).length

/-! ## Verdict threshold (`main` in `main.go`)

`main` computes
`passingPercentage := float32(cfg.PassingPercent) / 100`,
`passingScore := passingPercentage * float32(cfg.Count)`,
`passInt := int(passingScore)`.
Each `float32` operation is embedded as exact fraction arithmetic followed by
correct rounding to the nearest binary32 value (ties to even). -/

/-- Exact fractions with positive denominator, used to evaluate the
`float32` expressions of `main` exactly. No normalisation is performed;
every operation below keeps the denominator positive. -/
structure Frac where
  num : Int
  den : Int
deriving DecidableEq

/-- The fraction `n / 1`. -/
def Frac.ofInt (n : Int) : Frac := ⟨n, 1⟩

/-- Product of fractions. -/
def Frac.mul (a b : Frac) : Frac := ⟨a.num * b.num, a.den * b.den⟩

/-- Divide a fraction by a positive integer. -/
def Frac.divPos (a : Frac) (k : Int) : Frac := ⟨a.num, a.den * k⟩

/-- Multiply a fraction by `2 ^ k` (`k` may be negative). -/
def Frac.mulPow2 (a : Frac) (k : Int) : Frac :=
  match k with
  | .ofNat n => ⟨a.num * 2 ^ n, a.den⟩
  | .negSucc n => ⟨a.num, a.den * 2 ^ (n + 1)⟩

/-- Truncation toward zero, the semantics of Go's `int(f)` conversion. -/
def Frac.trunc (q : Frac) : Int := Int.tdiv q.num q.den

/-- Round a fraction to the nearest integer, ties to even. -/
def Frac.rndEven (q : Frac) : Int :=
  let f := Int.fdiv q.num q.den
  let r := q.num - f * q.den
  if 2 * r < q.den then f
  else if q.den < 2 * r then f + 1
  else if f % 2 = 0 then f else f + 1

/-- Number of binary digits of a natural number. The first argument is
structural fuel; `n` units always suffice since the value at least halves
each step. -/
def bitLenAux : Nat → Nat → Nat
  | 0, _ => 0
  | _ + 1, 0 => 0
  | fuel + 1, n + 1 => bitLenAux fuel ((n + 1) / 2) + 1

/-- Number of binary digits of a natural number (`0` for `0`). -/
def bitLen (n : Nat) : Nat := bitLenAux n n

/-- `⌊log₂ |q|⌋` of a nonzero fraction with positive denominator: the bit
lengths of numerator and denominator bracket the exponent to two candidate
values, and one exact comparison (`2 ^ d ≤ |q|`, cross-multiplied) settles
which one it is. -/
def Frac.log2 (q : Frac) : Int :=
  let a := q.num.natAbs
  let b := q.den.toNat
  let d : Int := (bitLen a : Int) - (bitLen b : Int)
  let le : Bool :=
    match d with
    | .ofNat n => decide (b * 2 ^ n ≤ a)
    | .negSucc n => decide (b ≤ a * 2 ^ (n + 1))
  if le then d else d - 1

/-- Round an exact fraction to the nearest IEEE-754 binary32 value (round to
nearest, ties to even), returned as an exact fraction: scale into the binade
`[2 ^ 23, 2 ^ 24)`, round to an integer significand, scale back. The
exponent is not clamped, which is faithful here because every value
reachable in `main`'s threshold computation on Go `int` inputs lies strictly
inside the normal range of binary32 (no overflow, no subnormals). -/
def fl32 (q : Frac) : Frac :=
  if q.num = 0 then Frac.ofInt 0
  else
    let e : Int := q.log2 - 23
    (Frac.ofInt (Frac.rndEven (q.mulPow2 (-e)))).mulPow2 e

/-- The pass-threshold computation of `main` (lines 59-61): the required
number of passing checks. -/
def passInt (passingPercent count : Int) : Int :=
  let passingPercentage := fl32 ((fl32 (Frac.ofInt passingPercent)).divPos 100)
  let passingScore := fl32 (passingPercentage.mul (fl32 (Frac.ofInt count)))
  passingScore.trunc

/-- Modelled from the spec: "Required passes = `floor((config.passingPercent
/ 100.0) * config.count)` using the same truncation-toward-zero semantics as
integer conversion of a floating-point product" — i.e. the float32 quotient
times the float32 count, truncated toward zero. -/
def requiredPassesSpec (passingPercent count : Int) : Int :=
  (fl32 ((fl32 (Frac.ofInt passingPercent)).divPos 100)
    |>.mul (fl32 (Frac.ofInt count)) |> fl32).trunc

/-- The verdict of `main` (line 77): failure is reported exactly when
`summary.ChecksPassed < passInt`. -/
def verdictOk (summary : checkSummary) (cfg : CheckConfig) : Bool :=
  if summary.ChecksPassed < passInt cfg.PassingPercent cfg.Count then false
  else true

/-! ## Concrete sample inputs used by witnesses -/

/-- A small valid configuration: two `GET` checks, no pacing. -/
def cfgGet2 : CheckConfig :=
  { CheckURL := "http://x", Count := 2, Seconds := 0, PassingPercent := 100,
    RequestType := "GET", RequestBody := defaultRequestBody,
    ExpectedStatusCode := 200 }

/-- The sample configuration with zero requests. -/
def cfgZero : CheckConfig := { cfgGet2 with Count := 0 }

/-- The sample configuration with a negative request count. -/
def cfgNeg3 : CheckConfig := { cfgGet2 with Count := -3 }

/-- The sample configuration with pacing enabled. -/
def cfgPaced : CheckConfig := { cfgGet2 with Count := 3, Seconds := 1 }

/-- The sample configuration with `count = 3`, `passingPercent = 50`. -/
def cfg50of3 : CheckConfig := { cfgGet2 with Count := 3, PassingPercent := 50 }

/-- A summary with one of three checks passed. -/
def sum3pass1 : checkSummary :=
  { ChecksRan := 3, ChecksPassed := 1, ChecksFailed := 2 }

/-- A summary with none of three checks passed. -/
def sum3pass0 : checkSummary :=
  { ChecksRan := 3, ChecksPassed := 0, ChecksFailed := 3 }

/-- A network that always answers 200. -/
def netOK : Nat → Except String Int := fun _ => .ok 200

/-- A network that answers 200 once and then refuses connections. -/
def netFlaky : Nat → Except String Int :=
  fun i => if i = 0 then .ok 200 else .error "connection refused"

/-- The configuration produced from an environment that only sets
`CHECK_URL=http://x`: every other field keeps its default. -/
def cfgHttpX : CheckConfig :=
  { CheckURL := "http://x", Count := defaultCount, Seconds := defaultSeconds,
    PassingPercent := defaultPassingPercent, RequestType := defaultRequestType,
    RequestBody := defaultRequestBody,
    ExpectedStatusCode := defaultExpectedStatusCode }

/-- The six optional configuration variables of `parseConfig`. -/
def optionalVarNames : List String :=
  ["COUNT", "SECONDS", "PASSING_PERCENT", "REQUEST_TYPE", "REQUEST_BODY",
   "EXPECTED_STATUS_CODE"]

/-- Environment with only the URL set. -/
def envHttpX : Env := envWith [("CHECK_URL", "http://x")]

/-- Environment with a non-`http` URL. -/
def envFtp : Env := envWith [("CHECK_URL", "ftp://x")]

/-- Environment requesting a negative count. -/
def envNegCount : Env := envWith [("CHECK_URL", "http://x"), ("COUNT", "-5")]

/-- Environment with `PASSING_PERCENT=0`. -/
def envPP0 : Env := envWith [("CHECK_URL", "http://x"), ("PASSING_PERCENT", "0")]

/-- Environment with `EXPECTED_STATUS_CODE=0`. -/
def envESC0 : Env :=
  envWith [("CHECK_URL", "http://x"), ("EXPECTED_STATUS_CODE", "0")]

/-- Environment where every optional variable is present but empty. -/
def envAllEmpty : Env :=
  envWith (("CHECK_URL", "http://x") :: optionalVarNames.map (fun n => (n, "")))

end HttpCheck

deriving instance DecidableEq for Except

namespace HttpCheck

/-! ## Helper lemmas about the dispatch and the loop -/

/-- On any request, `callAPI` fed a transport error never returns a status
code (every branch either propagates a wrapped error or rejects the method
before I/O). -/
theorem callAPI_of_error (msg : String) (req : APIRequest) :
    ∃ e, (callAPI (Except.error msg) req).1 = Except.error e := by
  unfold callAPI
  split
  · exact ⟨_, rfl⟩
  split
  · exact ⟨_, rfl⟩
  · exact ⟨_, rfl⟩

/-- One loop iteration increments `ChecksRan` by one and exactly one of
`ChecksPassed`, `ChecksFailed` by one, whatever the dispatch outcome. -/
theorem runStep_counts (cfg : CheckConfig) (url : String)
    (respond : Except String Int) (s : checkSummary) :
    (runStep cfg url respond s).1.ChecksRan = s.ChecksRan + 1 ∧
    (((runStep cfg url respond s).1.ChecksPassed = s.ChecksPassed + 1 ∧
      (runStep cfg url respond s).1.ChecksFailed = s.ChecksFailed) ∨
     ((runStep cfg url respond s).1.ChecksFailed = s.ChecksFailed + 1 ∧
      (runStep cfg url respond s).1.ChecksPassed = s.ChecksPassed)) := by
  cases h : (callAPI respond
      { URL := url, «Type» := cfg.RequestType, Body := cfg.RequestBody }).1 with
  | error e => simp [runStep, h]
  | ok code =>
    by_cases hc : code = cfg.ExpectedStatusCode <;> simp [runStep, h, hc]

/-- The events of one loop iteration: the calls issued by the dispatch,
followed by the ticker wait. -/
theorem runStep_events (cfg : CheckConfig) (url : String)
    (respond : Except String Int) (s : checkSummary) :
    (runStep cfg url respond s).2 =
      (callAPI respond
        { URL := url, «Type» := cfg.RequestType, Body := cfg.RequestBody }).2.map
          Event.call ++ waitForTicker cfg := by
  cases h : (callAPI respond
      { URL := url, «Type» := cfg.RequestType, Body := cfg.RequestBody }).1 with
  | error e => simp [runStep, h]
  | ok code =>
    by_cases hc : code = cfg.ExpectedStatusCode <;> simp [runStep, h, hc]

/-- When the loop guard is already false the loop returns its argument
untouched and performs nothing, for any fuel. -/
theorem runChecksLoop_exit (cfg : CheckConfig) (url : String)
    (net : Nat → Except String Int) (fuel : Nat) (s : checkSummary)
    (h : ¬ s.ChecksRan < cfg.Count) :
    runChecksLoop cfg url net fuel s = (s, []) := by
  cases fuel <;> simp [runChecksLoop, h]

/-- The loop preserves `ChecksRan = ChecksPassed + ChecksFailed`. -/
theorem runChecksLoop_inv (cfg : CheckConfig) (url : String)
    (net : Nat → Except String Int) :
    ∀ (fuel : Nat) (s : checkSummary),
      s.ChecksRan = s.ChecksPassed + s.ChecksFailed →
      (runChecksLoop cfg url net fuel s).1.ChecksRan =
        (runChecksLoop cfg url net fuel s).1.ChecksPassed +
        (runChecksLoop cfg url net fuel s).1.ChecksFailed := by
  intro fuel
  induction fuel with
  | zero => intro s h; simpa [runChecksLoop] using h
  | succ fuel ih =>
    intro s h
    by_cases hc : s.ChecksRan < cfg.Count
    · simp only [runChecksLoop, if_pos hc]
      refine ih _ ?_
      obtain ⟨h1, h2⟩ := runStep_counts cfg url (net s.ChecksRan.toNat) s
      rcases h2 with ⟨hp, hf⟩ | ⟨hf, hp⟩ <;> omega
    · simpa [runChecksLoop, hc] using h

/-- `ChecksRan` never exceeds `max` of its start value and `cfg.Count`. -/
theorem runChecksLoop_ran_le (cfg : CheckConfig) (url : String)
    (net : Nat → Except String Int) :
    ∀ (fuel : Nat) (s : checkSummary),
      (runChecksLoop cfg url net fuel s).1.ChecksRan ≤
        max s.ChecksRan cfg.Count := by
  intro fuel
  induction fuel with
  | zero => intro s; simp [runChecksLoop]
  | succ fuel ih =>
    intro s
    by_cases hc : s.ChecksRan < cfg.Count
    · simp only [runChecksLoop, if_pos hc]
      have h1 := (runStep_counts cfg url (net s.ChecksRan.toNat) s).1
      have h2 := ih (runStep cfg url (net s.ChecksRan.toNat) s).1
      omega
    · simp [runChecksLoop, hc]

/-- With enough fuel (one unit per missing iteration) the loop drives
`ChecksRan` up to `cfg.Count` (or leaves it alone if it already reached or
passed it). -/
theorem runChecksLoop_complete (cfg : CheckConfig) (url : String)
    (net : Nat → Except String Int) :
    ∀ (fuel : Nat) (s : checkSummary),
      cfg.Count - s.ChecksRan ≤ (fuel : Int) →
      (runChecksLoop cfg url net fuel s).1.ChecksRan =
        max s.ChecksRan cfg.Count := by
  intro fuel
  induction fuel with
  | zero => intro s h; simp only [runChecksLoop]; omega
  | succ fuel ih =>
    intro s h
    by_cases hc : s.ChecksRan < cfg.Count
    · simp only [runChecksLoop, if_pos hc]
      have h1 := (runStep_counts cfg url (net s.ChecksRan.toNat) s).1
      have h2 := ih (runStep cfg url (net s.ChecksRan.toNat) s).1 (by push_cast at h ⊢; omega)
      omega
    · simp only [runChecksLoop, if_neg hc]; omega

/-- The result of the loop does not depend on surplus fuel: any two fuels of
at least `(cfg.Count - s.ChecksRan).toNat` (the number of iterations the
guard still allows) give the same summary and the same trace. In particular
`runChecks`'s choice `cfg.Count.toNat` is exact. -/
theorem runChecksLoop_fuel_stable (cfg : CheckConfig) (url : String)
    (net : Nat → Except String Int) :
    ∀ (f₁ f₂ : Nat) (s : checkSummary),
      (cfg.Count - s.ChecksRan).toNat ≤ f₁ →
      (cfg.Count - s.ChecksRan).toNat ≤ f₂ →
      runChecksLoop cfg url net f₁ s = runChecksLoop cfg url net f₂ s := by
  intro f₁
  induction f₁ with
  | zero =>
    intro f₂ s h1 h2
    have hc : ¬ s.ChecksRan < cfg.Count := by omega
    rw [runChecksLoop_exit cfg url net _ _ hc, runChecksLoop_exit cfg url net _ _ hc]
  | succ f ih =>
    intro f₂ s h1 h2
    by_cases hc : s.ChecksRan < cfg.Count
    · obtain ⟨g, rfl⟩ : ∃ g, f₂ = g + 1 := by
        cases f₂ with
        | zero => omega
        | succ g => exact ⟨g, rfl⟩
      simp only [runChecksLoop, if_pos hc]
      have hr := (runStep_counts cfg url (net s.ChecksRan.toNat) s).1
      rw [ih g (runStep cfg url (net s.ChecksRan.toNat) s).1 (by omega) (by omega)]
    · rw [runChecksLoop_exit cfg url net _ _ hc, runChecksLoop_exit cfg url net _ _ hc]

/-! ## Claim theorems -/

/-- C1: for every valid configuration (`0 ≤ cfg.Count`, as the spec requires
of `count`), after `runChecks` completes the summary satisfies
`ChecksRan = ChecksPassed + ChecksFailed` and `ChecksRan = cfg.Count`;
throughout the run — i.e. after every prefix of `k` iterations —
`ChecksRan = ChecksPassed + ChecksFailed` and `ChecksRan ≤ cfg.Count` hold;
and each loop iteration increments `ChecksRan` by one and exactly one of
`ChecksPassed`/`ChecksFailed` by one. -/
theorem runChecks_summary_invariant (cfg : CheckConfig) (url : String)
    (net : Nat → Except String Int) (hvalid : 0 ≤ cfg.Count) :
    ((runChecks cfg url net).1.ChecksRan =
        (runChecks cfg url net).1.ChecksPassed +
        (runChecks cfg url net).1.ChecksFailed ∧
      (runChecks cfg url net).1.ChecksRan = cfg.Count) ∧
    (∀ k : Nat,
      (runChecksLoop cfg url net k initSummary).1.ChecksRan =
          (runChecksLoop cfg url net k initSummary).1.ChecksPassed +
          (runChecksLoop cfg url net k initSummary).1.ChecksFailed ∧
        (runChecksLoop cfg url net k initSummary).1.ChecksRan ≤ cfg.Count) ∧
    (∀ (respond : Except String Int) (s : checkSummary),
      (runStep cfg url respond s).1.ChecksRan = s.ChecksRan + 1 ∧
        (((runStep cfg url respond s).1.ChecksPassed = s.ChecksPassed + 1 ∧
            (runStep cfg url respond s).1.ChecksFailed = s.ChecksFailed) ∨
          ((runStep cfg url respond s).1.ChecksFailed = s.ChecksFailed + 1 ∧
            (runStep cfg url respond s).1.ChecksPassed = s.ChecksPassed))) := by
  refine ⟨⟨?_, ?_⟩, ?_, ?_⟩
  · exact runChecksLoop_inv cfg url net _ _ (by simp [initSummary])
  · have h := runChecksLoop_complete cfg url net cfg.Count.toNat initSummary
      (by simp only [initSummary]; omega)
    have h0 : initSummary.ChecksRan = 0 := rfl
    simp only [runChecks]
    omega
  · intro k
    refine ⟨runChecksLoop_inv cfg url net k initSummary (by simp [initSummary]), ?_⟩
    have h := runChecksLoop_ran_le cfg url net k initSummary
    have h0 : initSummary.ChecksRan = 0 := rfl
    omega
  · intro respond s
    exact runStep_counts cfg url respond s

/-- Witness for C1 at a concrete configuration and network. -/
theorem runChecks_summary_invariant_witness :
    (runChecks cfgGet2 "http://x" netFlaky).1.ChecksRan =
        (runChecks cfgGet2 "http://x" netFlaky).1.ChecksPassed +
        (runChecks cfgGet2 "http://x" netFlaky).1.ChecksFailed ∧
      (runChecks cfgGet2 "http://x" netFlaky).1.ChecksRan = cfgGet2.Count :=
  (runChecks_summary_invariant cfgGet2 "http://x" netFlaky (by decide)).1

/-- C6: `runChecks` never fails itself — its Go error result is the nil of
`return summary, nil` for every configuration, URL and network behaviour; a
dispatch error in an iteration only increments the failed counter, leaving
the passed counter alone; and even so the loop always runs to completion
(`ChecksRan = cfg.Count` whenever `0 ≤ cfg.Count`), so the error does not
propagate past its iteration. -/
theorem runChecks_never_fails :
    (∀ (cfg : CheckConfig) (url : String) (net : Nat → Except String Int),
      runChecksE cfg url net = .ok (runChecks cfg url net)) ∧
    (∀ (cfg : CheckConfig) (url msg : String) (s : checkSummary),
      (runStep cfg url (.error msg) s).1 =
        { ChecksRan := s.ChecksRan + 1, ChecksPassed := s.ChecksPassed,
          ChecksFailed := s.ChecksFailed + 1 }) ∧
    (∀ (cfg : CheckConfig) (url : String) (net : Nat → Except String Int),
      0 ≤ cfg.Count → (runChecks cfg url net).1.ChecksRan = cfg.Count) := by
  refine ⟨fun _ _ _ => rfl, ?_, ?_⟩
  · intro cfg url msg s
    obtain ⟨e, he⟩ := callAPI_of_error msg
      { URL := url, «Type» := cfg.RequestType, Body := cfg.RequestBody }
    simp [runStep, he]
  · intro cfg url net hvalid
    have h := runChecksLoop_complete cfg url net cfg.Count.toNat initSummary
      (by simp only [initSummary]; omega)
    have h0 : initSummary.ChecksRan = 0 := rfl
    simp only [runChecks]
    omega

/-- Witness for C6 at a concrete configuration and an always-failing
network. -/
theorem runChecks_never_fails_witness :
    (runChecks cfgGet2 "http://x" (fun _ => .error "refused")).1.ChecksRan =
      cfgGet2.Count :=
  runChecks_never_fails.2.2 cfgGet2 "http://x" (fun _ => .error "refused")
    (by decide)

/-- C8: with `cfg.Count = 0` the loop exits at once for any amount of fuel:
`runChecks` returns the all-zero summary and an empty trace — no dispatch
call (indeed no event at all) happens. -/
theorem runChecks_count_zero (cfg : CheckConfig) (url : String)
    (net : Nat → Except String Int) (h : cfg.Count = 0) :
    runChecks cfg url net = (initSummary, []) ∧
    (∀ fuel, runChecksLoop cfg url net fuel initSummary = (initSummary, [])) ∧
    initSummary = { ChecksRan := 0, ChecksPassed := 0, ChecksFailed := 0 } := by
  have hstop : ∀ fuel, runChecksLoop cfg url net fuel initSummary =
      (initSummary, []) := by
    intro fuel
    exact runChecksLoop_exit cfg url net fuel initSummary (by simp [initSummary, h])
  exact ⟨hstop cfg.Count.toNat, hstop, rfl⟩

/-- Witness for C8 at a concrete configuration. -/
theorem runChecks_count_zero_witness :
    runChecks cfgZero "http://x" netOK = (initSummary, []) :=
  (runChecks_count_zero cfgZero "http://x" netOK (by decide)).1

/-- C9: a negative `cfg.Count` makes the loop guard false immediately, so
`runChecks` performs no dispatch call and returns the all-zero summary (for
any fuel); and `parseConfig` applies no non-negativity check to `COUNT`, so
a negative value does reach the loop: parsing `COUNT=-5` succeeds with
`Count = -5`. -/
theorem runChecks_negative_count :
    (∀ (cfg : CheckConfig) (url : String) (net : Nat → Except String Int),
      cfg.Count < 0 →
      runChecks cfg url net = (initSummary, []) ∧
      (∀ fuel, runChecksLoop cfg url net fuel initSummary = (initSummary, [])) ∧
      ¬ initSummary.ChecksRan < cfg.Count) ∧
    parseConfig envNegCount = .ok { cfgHttpX with Count := -5 } := by
  constructor
  · intro cfg url net h
    have hstop : ∀ fuel, runChecksLoop cfg url net fuel initSummary =
        (initSummary, []) := by
      intro fuel
      exact runChecksLoop_exit cfg url net fuel initSummary
        (by simp [initSummary]; omega)
    exact ⟨hstop cfg.Count.toNat, hstop, by simp [initSummary]; omega⟩
  · decide

/-- Witness for C9 at a concrete configuration. -/
theorem runChecks_negative_count_witness :
    runChecks cfgNeg3 "http://x" netOK = (initSummary, []) :=
  (runChecks_negative_count.1 cfgNeg3 "http://x" netOK (by decide)).1

/-- Helper for C4: whenever `parseConfig` succeeds, the configuration keeps
the URL exactly as it was read from the environment. -/
theorem parseConfigStr_ok_url (get : String → String) (cfg : CheckConfig)
    (h : parseConfigStr get = .ok cfg) : cfg.CheckURL = get "CHECK_URL" := by
  unfold parseConfigStr at h
  by_cases h1 : (get "CHECK_URL").length = 0
  · rw [if_pos h1] at h
    exact absurd h (by simp)
  rw [if_neg h1] at h
  by_cases h2 : strStartsWith (get "CHECK_URL") "http" = false
  · rw [if_pos h2] at h
    exact absurd h (by simp)
  rw [if_neg h2] at h
  repeat' split at h
  all_goals first
    | (injection h with h3; subst h3; rfl)
    | exact absurd h (by simp)

/-- C4: `parseConfig` fails with the missing-URL `ConfigError` when
`CHECK_URL` reads as empty (missing or set to the empty string), fails with
the unsupported-protocol `ConfigError` when the URL does not start with
`http` (concretely for `ftp://x`), accepts `http://x`, and any accepted URL
is stored in the configuration unchanged. -/
theorem parseConfig_url_validation :
    (∀ env : Env, getEnvStr env "CHECK_URL" = "" →
      parseConfig env =
        .error "empty CHECK_URL specified. Please update your CHECK_URL environment variable") ∧
    (∀ env : Env, (getEnvStr env "CHECK_URL").length ≠ 0 →
      strStartsWith (getEnvStr env "CHECK_URL") "http" = false →
      parseConfig env =
        .error "given URL does not declare a supported protocol. (http | https)") ∧
    parseConfig envFtp =
      .error "given URL does not declare a supported protocol. (http | https)" ∧
    parseConfig envHttpX = .ok cfgHttpX ∧
    (∀ (env : Env) (cfg : CheckConfig), parseConfig env = .ok cfg →
      cfg.CheckURL = getEnvStr env "CHECK_URL") := by
  refine ⟨?_, ?_, by decide, by decide, ?_⟩
  · intro env h
    simp [parseConfig, parseConfigStr, h]
  · intro env h1 h2
    simp [parseConfig, parseConfigStr, h1, h2]
  · intro env cfg h
    exact parseConfigStr_ok_url (getEnvStr env) cfg h

/-- Witness for C4 at concrete environments. -/
theorem parseConfig_url_validation_witness :
    parseConfig (envWith []) =
      .error "empty CHECK_URL specified. Please update your CHECK_URL environment variable" ∧
    cfgHttpX.CheckURL = getEnvStr envHttpX "CHECK_URL" :=
  ⟨parseConfig_url_validation.1 (envWith []) (by decide),
   parseConfig_url_validation.2.2.2.2 envHttpX cfgHttpX (by decide)⟩

/-- C3: a `PASSING_PERCENT` of `0` is coerced to the default 100 and an
`EXPECTED_STATUS_CODE` of `0` is coerced to the default 200: parsing with
the variable set to `"0"` yields exactly the same result (hence the same
configuration, and so the same required-pass count) as parsing with it set
to `"100"` (resp. `"200"`), over every environment; concretely, parsing
`PASSING_PERCENT=0` (resp. `EXPECTED_STATUS_CODE=0`) next to
`CHECK_URL=http://x` yields the default configuration with
`PassingPercent = 100` (resp. `ExpectedStatusCode = 200`). -/
theorem parseConfig_zero_coercions :
    (∀ env : Env,
      parseConfig (setVar env "PASSING_PERCENT" (some "0")) =
        parseConfig (setVar env "PASSING_PERCENT" (some "100"))) ∧
    (∀ env : Env,
      parseConfig (setVar env "EXPECTED_STATUS_CODE" (some "0")) =
        parseConfig (setVar env "EXPECTED_STATUS_CODE" (some "200"))) ∧
    parseConfig envPP0 = .ok cfgHttpX ∧
    parseConfig envESC0 = .ok cfgHttpX ∧
    cfgHttpX.PassingPercent = 100 ∧
    cfgHttpX.ExpectedStatusCode = 200 :=
  ⟨fun _ => rfl, fun _ => rfl, by decide, by decide, rfl, rfl⟩

/-- C10: an optional variable that is present but empty is handled exactly
like an absent one — `parseConfig` cannot distinguish the two environments —
and with every optional variable present-but-empty next to a valid URL the
parse succeeds with all the documented defaults (`Count = 0`,
`RequestBody = "\x7b\x7d"`, …). -/
theorem parseConfig_empty_as_absent :
    (∀ (env : Env) (name : String), name ∈ optionalVarNames →
      parseConfig (setVar env name (some "")) =
        parseConfig (setVar env name none)) ∧
    parseConfig envAllEmpty = .ok cfgHttpX := by
  constructor
  · intro env name _
    unfold parseConfig
    congr 1
    funext n
    by_cases h : n = name <;> simp [getEnvStr, setVar, h]
  · decide

/-- Witness for C10: `COUNT=""` next to an arbitrary base environment. -/
theorem parseConfig_empty_as_absent_witness :
    parseConfig (setVar envHttpX "COUNT" (some "")) =
      parseConfig (setVar envHttpX "COUNT" none) :=
  parseConfig_empty_as_absent.1 envHttpX "COUNT" (by decide)

/-- C5: any method other than `GET`/`POST`/`PUT`/`DELETE`/`PATCH` (e.g.
`HEAD`) makes `callAPI` fail immediately with the `wrong request type found`
error and an empty call trace — no network call; `GET` issues exactly one
GET carrying no body, and the `Body` argument is ignored entirely; each of
`POST`/`PUT`/`DELETE`/`PATCH` issues exactly one request of that method
carrying the body. -/
theorem callAPI_method_dispatch :
    (∀ (respond : Except String Int) (url body m : String),
      m ∉ (["GET", "POST", "PUT", "DELETE", "PATCH"] : List String) →
      callAPI respond { URL := url, «Type» := m, Body := body } =
        (.error ("error occurred while calling " ++ url ++
          ": wrong request type found"), [])) ∧
    (∀ (respond : Except String Int) (url body : String),
      (callAPI respond { URL := url, «Type» := "GET", Body := body }).2 =
        [{ method := "GET", url := url, body := none }]) ∧
    (∀ (respond : Except String Int) (url b₁ b₂ : String),
      callAPI respond { URL := url, «Type» := "GET", Body := b₁ } =
        callAPI respond { URL := url, «Type» := "GET", Body := b₂ }) ∧
    (∀ (respond : Except String Int) (url body m : String),
      m ∈ (["POST", "PUT", "DELETE", "PATCH"] : List String) →
      (callAPI respond { URL := url, «Type» := m, Body := body }).2 =
        [{ method := m, url := url, body := some body }]) := by
  refine ⟨?_, fun _ _ _ => rfl, fun _ _ _ _ => rfl, ?_⟩
  · intro respond url body m hm
    simp only [List.mem_cons, List.not_mem_nil, or_false, not_or] at hm
    obtain ⟨h1, h2, h3, h4, h5⟩ := hm
    simp [callAPI, h1, h2, h3, h4, h5]
  · intro respond url body m hm
    simp only [List.mem_cons, List.not_mem_nil, or_false] at hm
    rcases hm with rfl | rfl | rfl | rfl <;> rfl

/-- Witness for C5 at method `HEAD` (and one valid non-GET method). -/
theorem callAPI_method_dispatch_witness :
    callAPI (.ok 200) { URL := "http://x", «Type» := "HEAD", Body := "b" } =
      (.error ("error occurred while calling " ++ "http://x" ++
        ": wrong request type found"), []) ∧
    (callAPI (.ok 200) { URL := "http://x", «Type» := "POST", Body := "b" }).2 =
      [{ method := "POST", url := "http://x", body := some "b" }] :=
  ⟨callAPI_method_dispatch.1 (.ok 200) "http://x" "b" "HEAD" (by decide),
   callAPI_method_dispatch.2.2.2 (.ok 200) "http://x" "b" "POST" (by decide)⟩

/-- C2: the required-pass count of `main` is the spec's
`floor((passingPercent / 100.0) * count)` with the truncation-toward-zero
semantics of converting the float32 product to an integer; the verdict is ok
exactly when `summary.ChecksPassed` reaches that count; and in particular
`count = 3`, `passingPercent = 50` requires exactly `1` pass (`floor(1.5)`),
so one pass out of three is ok and zero passes out of three is not. -/
theorem verdict_threshold :
    (∀ (s : checkSummary) (cfg : CheckConfig),
      verdictOk s cfg = true ↔
        passInt cfg.PassingPercent cfg.Count ≤ s.ChecksPassed) ∧
    (∀ p c : Int, passInt p c = requiredPassesSpec p c) ∧
    passInt 50 3 = 1 ∧
    verdictOk sum3pass1 cfg50of3 = true ∧
    verdictOk sum3pass0 cfg50of3 = false := by
  refine ⟨?_, fun _ _ => rfl, by decide, by decide, by decide⟩
  intro s cfg
  unfold verdictOk
  by_cases h : s.ChecksPassed < passInt cfg.PassingPercent cfg.Count
  · simp [h]
  · simp [h]
    omega

/-- Appending traces adds wait counts. -/
theorem waitCount_append (a b : List Event) :
    waitCount (a ++ b) = waitCount a + waitCount b := by
  simp [waitCount, List.filter_append]

/-- Network-call events contribute no waits. -/
theorem waitCount_calls (l : List HttpCall) :
    waitCount (l.map Event.call) = 0 := by
  induction l with
  | nil => rfl
  | cons a t ih => simp [waitCount, List.filter, isWaitEv]

/-- Wait count of the ticker block: one wait exactly when armed. -/
theorem waitCount_waitForTicker (cfg : CheckConfig) :
    waitCount (waitForTicker cfg) = if 0 < cfg.Seconds then 1 else 0 := by
  by_cases h : 0 < cfg.Seconds <;>
    simp [waitForTicker, waitCount, isWaitEv, h]

/-- Each loop iteration contributes exactly one wait when the ticker is
armed and none otherwise, on every outcome path. -/
theorem runStep_waitCount (cfg : CheckConfig) (url : String)
    (respond : Except String Int) (s : checkSummary) :
    waitCount (runStep cfg url respond s).2 =
      if 0 < cfg.Seconds then 1 else 0 := by
  rw [runStep_events, waitCount_append, waitCount_calls,
    waitCount_waitForTicker]
  omega

/-- When the ticker is armed, an iteration's trace ends with the wait,
whatever the dispatch outcome. -/
theorem runStep_getLast (cfg : CheckConfig) (url : String)
    (respond : Except String Int) (s : checkSummary) (h : 0 < cfg.Seconds) :
    ((runStep cfg url respond s).2).getLast? = some Event.wait := by
  rw [runStep_events]
  simp [waitForTicker, h, List.getLast?_concat]

/-- With the ticker armed and enough fuel, the loop performs exactly one
wait per remaining iteration. -/
theorem runChecksLoop_waitCount (cfg : CheckConfig) (url : String)
    (net : Nat → Except String Int) (harm : 0 < cfg.Seconds) :
    ∀ (fuel : Nat) (s : checkSummary),
      cfg.Count - s.ChecksRan ≤ (fuel : Int) →
      waitCount (runChecksLoop cfg url net fuel s).2 =
        (cfg.Count - s.ChecksRan).toNat := by
  intro fuel
  induction fuel with
  | zero =>
    intro s h
    simp only [runChecksLoop]
    simp only [waitCount, List.filter_nil, List.length_nil]
    push_cast at h
    omega
  | succ fuel ih =>
    intro s h
    by_cases hc : s.ChecksRan < cfg.Count
    · simp only [runChecksLoop, if_pos hc]
      rw [waitCount_append, runStep_waitCount, if_pos harm]
      have h1 := (runStep_counts cfg url (net s.ChecksRan.toNat) s).1
      rw [ih (runStep cfg url (net s.ChecksRan.toNat) s).1
        (by push_cast at h ⊢; omega)]
      omega
    · rw [runChecksLoop_exit cfg url net _ _ hc]
      simp only [waitCount, List.filter_nil, List.length_nil]
      omega

/-- Without an armed ticker the loop never waits. -/
theorem runChecksLoop_noWaits (cfg : CheckConfig) (url : String)
    (net : Nat → Except String Int) (h0 : ¬ 0 < cfg.Seconds) :
    ∀ (fuel : Nat) (s : checkSummary),
      waitCount (runChecksLoop cfg url net fuel s).2 = 0 := by
  intro fuel
  induction fuel with
  | zero => intro s; simp [runChecksLoop, waitCount]
  | succ fuel ih =>
    intro s
    by_cases hc : s.ChecksRan < cfg.Count
    · simp only [runChecksLoop, if_pos hc]
      rw [waitCount_append, runStep_waitCount, if_neg h0, ih]
    · rw [runChecksLoop_exit cfg url net _ _ hc]
      simp [waitCount]

/-- With the ticker armed, at least one iteration pending and enough fuel,
the whole trace ends with a wait: pacing also happens after the final
request. -/
theorem runChecksLoop_getLast (cfg : CheckConfig) (url : String)
    (net : Nat → Except String Int) (harm : 0 < cfg.Seconds) :
    ∀ (fuel : Nat) (s : checkSummary),
      s.ChecksRan < cfg.Count → cfg.Count - s.ChecksRan ≤ (fuel : Int) →
      ((runChecksLoop cfg url net fuel s).2).getLast? = some Event.wait := by
  intro fuel
  induction fuel with
  | zero =>
    intro s hc h
    push_cast at h
    omega
  | succ fuel ih =>
    intro s hc h
    simp only [runChecksLoop, if_pos hc]
    rw [List.getLast?_append]
    by_cases hnext :
        (runStep cfg url (net s.ChecksRan.toNat) s).1.ChecksRan < cfg.Count
    · rw [ih _ hnext (by
        have h1 := (runStep_counts cfg url (net s.ChecksRan.toNat) s).1
        push_cast at h ⊢
        omega)]
      rfl
    · rw [runChecksLoop_exit cfg url net _ _ hnext]
      simp [runStep_getLast cfg url (net s.ChecksRan.toNat) s harm]

/-- C7: with `delaySeconds > 0` every iteration of the loop ends by blocking
on the pacing timer, on every outcome path (the iteration's trace ends with
a wait, and a complete run over a valid count performs exactly `count`
waits); in particular the run's whole trace ends with a wait — pacing also
follows the final request; with `delaySeconds = 0` no wait is ever
performed. -/
theorem pacing_wait_behavior :
    (∀ (cfg : CheckConfig) (url : String) (respond : Except String Int)
        (s : checkSummary), 0 < cfg.Seconds →
      ((runStep cfg url respond s).2).getLast? = some Event.wait) ∧
    (∀ (cfg : CheckConfig) (url : String) (net : Nat → Except String Int),
      0 < cfg.Seconds → 0 ≤ cfg.Count →
      waitCount (runChecks cfg url net).2 = cfg.Count.toNat) ∧
    (∀ (cfg : CheckConfig) (url : String) (net : Nat → Except String Int),
      0 < cfg.Seconds → 0 < cfg.Count →
      ((runChecks cfg url net).2).getLast? = some Event.wait) ∧
    (∀ (cfg : CheckConfig) (url : String) (net : Nat → Except String Int),
      cfg.Seconds = 0 → waitCount (runChecks cfg url net).2 = 0) := by
  refine ⟨?_, ?_, ?_, ?_⟩
  · intro cfg url respond s h
    exact runStep_getLast cfg url respond s h
  · intro cfg url net harm hcount
    have h0 : initSummary.ChecksRan = 0 := rfl
    have h := runChecksLoop_waitCount cfg url net harm cfg.Count.toNat
      initSummary (by omega)
    simp only [runChecks]
    omega
  · intro cfg url net harm hcount
    have h0 : initSummary.ChecksRan = 0 := rfl
    simp only [runChecks]
    exact runChecksLoop_getLast cfg url net harm cfg.Count.toNat initSummary
      (by omega) (by omega)
  · intro cfg url net h0
    simp only [runChecks]
    exact runChecksLoop_noWaits cfg url net (by omega) cfg.Count.toNat
      initSummary

/-- Witness for C7 at a paced and an unpaced concrete configuration. -/
theorem pacing_wait_behavior_witness :
    waitCount (runChecks cfgPaced "http://x" netOK).2 = cfgPaced.Count.toNat ∧
    ((runChecks cfgPaced "http://x" netOK).2).getLast? = some Event.wait ∧
    waitCount (runChecks cfgGet2 "http://x" netOK).2 = 0 :=
  ⟨pacing_wait_behavior.2.1 cfgPaced "http://x" netOK (by decide) (by decide),
   pacing_wait_behavior.2.2.1 cfgPaced "http://x" netOK (by decide) (by decide),
   pacing_wait_behavior.2.2.2 cfgGet2 "http://x" netOK (by decide)⟩

end HttpCheck
